import Mathlib

/-!
Verification of the `serve` package of the jig dynamic gRPC server
(src/serve/server.go and src/serve/httprule/handler.go), as a shallow
embedding in Lean 4.

Go strings are modelled by `List Char` wrapped back into `String` where
convenient; Go slices by `List`; Go maps by association lists; fallible
Go functions by `Except`; a Go `panic` by a distinguished constructor of
an outcome type, kept separate from a returned `error`.

Functions of this repository that live outside the two given source
files (the `registry` package, the httprule matcher/decoder, the status
table, the dispatcher `callMethod`) are modelled from the specification
and carry a doc comment saying so.
-/

namespace Serve

/-! ## Go string primitives

`strings.ReplaceAll(s, old, new)` replaces every non-overlapping
leftmost occurrence of `old` in `s` by `new`.  We embed it on
`List Char` by structural recursion on the subject string. -/

/-- Replace every non-overlapping leftmost occurrence of `pat` by `rep`,
as Go's strings.ReplaceAll does (for a nonempty pattern; Go's empty
pattern behaviour of interleaving is preserved by inserting `rep` before
every character and at the end, which no caller in this code uses). -/
def replaceAll (s pat rep : List Char) : List Char :=
  match pat with
  | [] => s
  | p :: ps =>
    match s with
    | [] => []
    | c :: cs =>
      if (p :: ps).isPrefixOf (c :: cs) then
        rep ++ replaceAll ((c :: cs).drop (p :: ps).length) pat rep
      else
        c :: replaceAll cs pat rep
termination_by s.length
decreasing_by
  · simp only [List.length_drop, List.length_cons]
    omega
  · simp

/-- Go's `strings.ReplaceAll` on `String`. -/
def stringReplaceAll (s pat rep : String) : String :=
  ⟨replaceAll s.data pat.data rep.data⟩

/-! ## Content types and content negotiation (handler.go) -/

/-- Modelled from the spec: the structured-text (JSON) media type
constant, declared in the httprule package outside the given sources. -/
def ContentTypeJSON : String := "application/json"

/-- Modelled from the spec: the binary-proto media type constant,
declared in the httprule package outside the given sources. -/
def ContentTypeBinaryProto : String := "application/x-protobuf"

/-- Embedding of `getAcceptType` (handler.go lines 286-304).
`parseMediaType` stands for the external `mime.ParseMediaType` (only its
media-type result is used; parameters are dropped by the source).
`acceptHeader` and `contentTypeHeader` are the values of
`r.Header.Get("Accept")` and `r.Header.Get("Content-Type")`, with `""`
for an absent header. -/
def getAcceptType (parseMediaType : String → Except String String)
    (acceptHeader contentTypeHeader : String) : Except String String :=
  let accept := if acceptHeader = "" then contentTypeHeader else acceptHeader
  let parsed : Except String String :=
    if accept ≠ "" ∧ accept ≠ "*/*" then parseMediaType accept
    else .ok ContentTypeJSON
  match parsed with
  | .error e => .error e
  | .ok mediaType =>
    if mediaType ≠ ContentTypeBinaryProto ∧ mediaType ≠ ContentTypeJSON then
      .error ("invalid Accept content type " ++ accept)
    else
      .ok mediaType

/-! ## HttpRule data model (google.api.HttpRule as used by handler.go) -/

/-- A custom HTTP pattern: a verb kind plus a path template. -/
structure CustomHttpPattern where
  kind : String
  path : String
deriving DecidableEq

/-- The `Pattern` oneof of an HttpRule.  `unset` is a rule whose oneof
field is nil, which the `switch` in interpolateHTTPRules leaves alone. -/
inductive HttpPattern where
  | get (path : String)
  | put (path : String)
  | post (path : String)
  | delete (path : String)
  | patch (path : String)
  | custom (c : CustomHttpPattern)
  | unset
deriving DecidableEq

/-- A google.api.HttpRule value: the pattern oneof plus the body and
response-body field selectors. -/
structure HttpRule where
  pattern : HttpPattern
  body : String
  responseBody : String
deriving DecidableEq

/-- Embedding of `interpolate` (handler.go lines 179-184): substitute
the three literal placeholders (package, service, method names in
braces) in a path template. -/
def interpolate (path pkg service method : String) : String :=
  let path := stringReplaceAll path "\x7bpackage\x7d" pkg
  let path := stringReplaceAll path "\x7bservice\x7d" service
  let path := stringReplaceAll path "\x7bmethod\x7d" method
  path

/-- The loop body of `interpolateHTTPRules` (handler.go lines 160-174):
`proto.Clone` the template, then rewrite the cloned pattern's path in
place.  In this pure embedding the clone-and-mutate is the returned
value; the store-level version below makes the heap explicit. -/
def interpolateRuleClone (tmpl : HttpRule) (pkg service method : String) : HttpRule :=
  { tmpl with
    pattern :=
      match tmpl.pattern with
      | .get p => .get (interpolate p pkg service method)
      | .put p => .put (interpolate p pkg service method)
      | .post p => .post (interpolate p pkg service method)
      | .delete p => .delete (interpolate p pkg service method)
      | .patch p => .patch (interpolate p pkg service method)
      | .custom c => .custom ⟨c.kind, interpolate c.path pkg service method⟩
      | .unset => .unset }

/-- Embedding of `interpolateHTTPRules` (handler.go lines 157-177),
value level: one synthesized rule per template, in template order. -/
def interpolateHTTPRules (httpRuleTemplates : List HttpRule)
    (pkg service method : String) : List HttpRule :=
  httpRuleTemplates.map (fun tmpl => interpolateRuleClone tmpl pkg service method)

/-- The path template carried by a rule's pattern, if any. -/
def HttpRule.patternPath : HttpRule → Option String
  | ⟨.get p, _, _⟩ => some p
  | ⟨.put p, _, _⟩ => some p
  | ⟨.post p, _, _⟩ => some p
  | ⟨.delete p, _, _⟩ => some p
  | ⟨.patch p, _, _⟩ => some p
  | ⟨.custom c, _, _⟩ => some c.path
  | ⟨.unset, _, _⟩ => none

/-- The HTTP verb a rule's pattern selects, if any. -/
def HttpRule.patternVerb : HttpRule → Option String
  | ⟨.get _, _, _⟩ => some "GET"
  | ⟨.put _, _, _⟩ => some "PUT"
  | ⟨.post _, _, _⟩ => some "POST"
  | ⟨.delete _, _, _⟩ => some "DELETE"
  | ⟨.patch _, _, _⟩ => some "PATCH"
  | ⟨.custom c, _, _⟩ => some c.kind
  | ⟨.unset, _, _⟩ => none

/-! ## Descriptors and the rule table (handler.go) -/

/-- A method descriptor, carrying its declared HttpRule annotations. -/
structure MethodDescriptor where
  name : String
  declaredRules : List HttpRule
deriving DecidableEq

/-- A service descriptor. -/
structure ServiceDescriptor where
  name : String
  methods : List MethodDescriptor
deriving DecidableEq

/-- A file descriptor: path, package, dependency paths, services. -/
structure FileDescriptor where
  path : String
  pkg : String
  deps : List String
  services : List ServiceDescriptor
deriving DecidableEq

/-- Modelled from the spec: `Collect(md)` gathers the method's declared
path-template rules (a primary rule plus any additional bindings).  It
is declared in the httprule package outside the given sources; here the
method descriptor carries that list directly. -/
def Collect (md : MethodDescriptor) : List HttpRule := md.declaredRules

/-- Embedding of the `httpMethod` struct (handler.go lines 23-26). -/
structure httpMethod where
  desc : MethodDescriptor
  rule : HttpRule
deriving DecidableEq

/-- The per-method body of `loadHTTPRules` (handler.go lines 141-144):
collect the declared rules; if there are none and templates were
configured, synthesize from the templates. -/
def rulesForMethod (httpRuleTemplates : List HttpRule) (pkg svc : String)
    (md : MethodDescriptor) : List HttpRule :=
  let rules := Collect md
  if rules.length = 0 ∧ httpRuleTemplates.length ≠ 0 then
    interpolateHTTPRules httpRuleTemplates pkg svc md.name
  else
    rules

/-- Embedding of `loadHTTPRules` (handler.go lines 132-155): nested
iteration over files, services, methods, appending one `httpMethod`
entry per rule onto the accumulating table, exactly as the Go loops do. -/
def loadHTTPRules (files : List FileDescriptor)
    (httpRuleTemplates : List HttpRule) : List httpMethod :=
  files.foldl (fun acc fd =>
    fd.services.foldl (fun acc sd =>
      sd.methods.foldl (fun acc md =>
        (rulesForMethod httpRuleTemplates fd.pkg sd.name md).foldl
          (fun acc r => acc ++ [⟨md, r⟩]) acc)
        acc)
      acc)
    []

/-! ## The HTTP handler (handler.go) -/

/-- The parts of an `http.Request` this development reads. -/
structure Request where
  verb : String
  path : String
  acceptHeader : String
  contentTypeHeader : String
deriving DecidableEq

/-- An HTTP response as observed by the client: status code, optional
Content-Type header, body bytes. -/
structure HttpResponse where
  status : Nat
  contentType : Option String
  body : String
deriving DecidableEq

/-- Go's `http.NotFoundHandler()`: replies 404 Not Found with a plain
text body. -/
def notFoundHandler : Request → HttpResponse :=
  fun _ => ⟨404, some "text/plain; charset=utf-8", "404 page not found\n"⟩

/-- Embedding of the `Handler` struct (handler.go lines 29-35); the
logger and the gRPC handler are kept outside the model. -/
structure Handler where
  httpMethods : List httpMethod
  ruleTemplates : List HttpRule
  defaultHandler : Request → HttpResponse

/-- `Option` in handler.go (line 60), renamed to avoid Lean's Option. -/
def HandlerOption := Handler → Except String Handler

/-- Embedding of `WithRuleTemplates` (handler.go lines 73-78). -/
def WithRuleTemplates (httpRuleTemplates : List HttpRule) : HandlerOption :=
  fun h => .ok { h with ruleTemplates := httpRuleTemplates }

/-- Embedding of `WithDefaultHandler` (handler.go lines 85-90). -/
def WithDefaultHandler (next : Request → HttpResponse) : HandlerOption :=
  fun h => .ok { h with defaultHandler := next }

/-- The option-application loop of `NewHandler` (handler.go lines 46-50). -/
def applyOptions : Handler → List HandlerOption → Except String Handler
  | h, [] => .ok h
  | h, opt :: rest =>
    match opt h with
    | .error e => .error e
    | .ok h' => applyOptions h' rest

/-- Embedding of `NewHandler` (handler.go lines 41-57): start from the
defaults (404 default handler, no templates), apply the options, then
build the rule table. -/
def NewHandler (files : List FileDescriptor) (options : List HandlerOption) :
    Except String Handler :=
  let h : Handler :=
    { httpMethods := [], ruleTemplates := [], defaultHandler := notFoundHandler }
  match applyOptions h options with
  | .error e => .error e
  | .ok h => .ok { h with httpMethods := loadHTTPRules files h.ruleTemplates }

/-- The routing decision `Handler.ServeHTTP` makes for a request. -/
inductive Dispatch where
  | toMethod (m : httpMethod) (vars : List (String × String))
  | toDefault
deriving DecidableEq

/-- Embedding of the routing loop of `Handler.ServeHTTP` (handler.go
lines 105-113).  `matchRequest` stands for `MatchRequest`, the compiled
matcher living in the httprule package outside the given sources; it
returns the captured variables, or none when the rule rejects the
request. -/
def ServeHTTP (matchRequest : HttpRule → Request → Option (List (String × String))) :
    List httpMethod → Request → Dispatch
  | [], _ => .toDefault
  | m :: rest, r =>
    match matchRequest m.rule r with
    | some vars => .toMethod m vars
    | none => ServeHTTP matchRequest rest r

/-! ## Status codes and errors -/

/-- The 17-member gRPC status-code enumeration. -/
inductive Code where
  | ok | cancelled | unknown | invalidArgument | deadlineExceeded | notFound
  | alreadyExists | permissionDenied | unauthenticated | resourceExhausted
  | failedPrecondition | aborted | outOfRange | unimplemented | internal
  | unavailable | dataLoss
deriving DecidableEq

/-- Modelled from the spec: `HTTPStatusFromCode`, the fixed RPC-to-HTTP
status table of section 6, declared in the httprule package outside the
given sources. -/
def HTTPStatusFromCode : Code → Nat
  | .ok => 200
  | .cancelled => 499
  | .unknown => 500
  | .invalidArgument => 400
  | .deadlineExceeded => 504
  | .notFound => 404
  | .alreadyExists => 409
  | .permissionDenied => 403
  | .unauthenticated => 401
  | .resourceExhausted => 429
  | .failedPrecondition => 400
  | .aborted => 409
  | .outOfRange => 400
  | .unimplemented => 501
  | .internal => 500
  | .unavailable => 503
  | .dataLoss => 500

/-- A gRPC status: code plus human-readable message. -/
structure GrpcStatus where
  code : Code
  message : String
deriving DecidableEq

/-- A Go `error` value as seen on this path: either a status-bearing
error (made by status.Errorf) or any other error carrying its text. -/
inductive GoError where
  | status (st : GrpcStatus)
  | plain (msg : String)
deriving DecidableEq

/-- The external grpc `status.Convert`: a status-bearing error converts
to its own status; any other error converts to code Unknown carrying the
error text. -/
def statusConvert : GoError → GrpcStatus
  | .status st => st
  | .plain msg => ⟨.unknown, msg⟩

/-! ## The stream adapter (serverStream, handler.go) -/

/-- An opaque protobuf message value. -/
structure ProtoMessage where
  id : Nat
deriving DecidableEq

/-- The mutable state of a serverStream the claims observe: the
negotiated accept type and the single buffered response.  The request,
response writer, rule, vars and logger are handles kept outside the
model. -/
structure ServerStreamState where
  acceptType : String
  resp : Option ProtoMessage
deriving DecidableEq

/-- Outcome of a Go method that either returns (with an optional error)
or panics.  Both constructors carry the stream state as left behind. -/
inductive SendOutcome where
  | ret (err : Option GoError) (s : ServerStreamState)
  | panicked (msg : String) (s : ServerStreamState)
deriving DecidableEq

/-- Embedding of `serverStream.SendMsg` (handler.go lines 226-233): the
single response is buffered until the RPC returns; a second send panics
with "only one response expected!". -/
def SendMsg (s : ServerStreamState) (m : ProtoMessage) : SendOutcome :=
  if s.resp.isSome then .panicked "only one response expected!" s
  else .ret none { s with resp := some m }

/-- Embedding of `serverStream.RecvMsg` (handler.go lines 235-244):
store the negotiated accept type (the empty string when negotiation
fails, as getAcceptType then returns ""), propagate a negotiation error,
then decode the request.  `decodeRequest` stands for `DecodeRequest`
(httprule package, outside the given sources) applied to this stream's
rule, vars and request. -/
def RecvMsg (parseMediaType : String → Except String String)
    (decodeRequest : Except String ProtoMessage)
    (s : ServerStreamState) (r : Request) :
    ServerStreamState × Except String ProtoMessage :=
  match getAcceptType parseMediaType r.acceptHeader r.contentTypeHeader with
  | .error e => ({ s with acceptType := "" }, .error e)
  | .ok mediaType =>
    match decodeRequest with
    | .error e => ({ s with acceptType := mediaType }, .error e)
    | .ok pb => ({ s with acceptType := mediaType }, .ok pb)

/-! ## Response writing (serverStream.writeResp / writeError) -/

/-- What the external marshallers are applied to on this path: the
stored response message (possibly nil) or a status converted to its
proto form. -/
inductive Marshallable where
  | resp (m : Option ProtoMessage)
  | statusProto (st : GrpcStatus)
deriving DecidableEq

/-- A marshalling function: external proto.Marshal / protojson.Marshal,
yielding bytes (modelled as a string) or an error. -/
def Marshal := Marshallable → Except String String

/-- Result of marshalerForContentType: a marshaller, or the panic its
default case raises. -/
inductive MarshalerOutcome where
  | fn (f : Marshal)
  | panicked (msg : String)

/-- Embedding of `marshalerForContentType` (handler.go lines 306-315):
binary-proto selects proto.Marshal, JSON selects protojson.Marshal, and
any other media type panics. -/
def marshalerForContentType (protoMarshal protojsonMarshal : Marshal)
    (mediaType : String) : MarshalerOutcome :=
  if mediaType = ContentTypeBinaryProto then .fn protoMarshal
  else if mediaType = ContentTypeJSON then .fn protojsonMarshal
  else .panicked "invalid content type"

/-- What a write path produces: a complete HTTP response, or a panic. -/
inductive WriteOutcome where
  | wrote (resp : HttpResponse)
  | panicked (msg : String)
deriving DecidableEq

/-- The fallback body of writeError (handler.go line 261), written
verbatim when marshalling the error status itself fails. -/
def errMarshalFailed : String :=
  "\x7b\"code\": 13, \"message\": \"failed to marshal error message\"\x7d"

/-- Embedding of `serverStream.writeError` (handler.go lines 259-284):
convert the error to a status; pick the marshaller from the negotiated
accept type (protojson, and no Content-Type header, when it is empty);
marshal the status proto; on marshalling failure write HTTP 500 with the
fixed fallback body, otherwise write the mapped HTTP status with the
marshalled payload. -/
def writeError (protoMarshal protojsonMarshal : Marshal)
    (s : ServerStreamState) (err : GoError) : WriteOutcome :=
  let st := statusConvert err
  let chosen : MarshalerOutcome :=
    if s.acceptType ≠ "" then
      marshalerForContentType protoMarshal protojsonMarshal s.acceptType
    else
      .fn protojsonMarshal
  let ct : Option String := if s.acceptType ≠ "" then some s.acceptType else none
  match chosen with
  | .panicked m => .panicked m
  | .fn marshaler =>
    match marshaler (.statusProto st) with
    | .error _ => .wrote ⟨500, ct, errMarshalFailed⟩
    | .ok buf => .wrote ⟨HTTPStatusFromCode st.code, ct, buf⟩

/-- Embedding of `serverStream.writeResp` (handler.go lines 246-257):
marshal the stored response with the negotiated marshaller; a
marshalling failure is routed through writeError; success writes the
bytes (HTTP 200 through the implicit WriteHeader on first Write). -/
def writeResp (protoMarshal protojsonMarshal : Marshal)
    (s : ServerStreamState) : WriteOutcome :=
  match marshalerForContentType protoMarshal protojsonMarshal s.acceptType with
  | .panicked m => .panicked m
  | .fn marshaler =>
    match marshaler (.resp s.resp) with
    | .error e => writeError protoMarshal protojsonMarshal s (.plain e)
    | .ok msg => .wrote ⟨200, none, msg⟩

/-! ## The dynamic dispatcher and the server (server.go) -/

/-- Modelled from the spec: the Dynamic Dispatcher of section 4.2 (the
`callMethod` the server hands to the handler, declared outside the given
sources).  It receives exactly one inbound value from the stream (a
failure there terminates the call with that call-local error), invokes
the Evaluator, and sends the single response.  The Bool records whether
the Evaluator was invoked. -/
def callMethod (eval : MethodDescriptor → ProtoMessage → Except GrpcStatus ProtoMessage)
    (md : MethodDescriptor) (recv : Except String ProtoMessage) :
    Bool × Except GoError (Option ProtoMessage) :=
  match recv with
  | .error e => (false, .error (.plain e))
  | .ok req =>
    match eval md req with
    | .error st => (true, .error (.status st))
    | .ok resp => (true, .ok (some resp))

/-- The HTTP-bridged unary call as `serveHTTPMethod` drives it: the
dispatcher's one receive goes through the stream adapter's RecvMsg. -/
def serveBridgedCall
    (eval : MethodDescriptor → ProtoMessage → Except GrpcStatus ProtoMessage)
    (parseMediaType : String → Except String String)
    (decodeRequest : Except String ProtoMessage)
    (md : MethodDescriptor) (s : ServerStreamState) (r : Request) :
    Bool × Except GoError (Option ProtoMessage) :=
  callMethod eval md (RecvMsg parseMediaType decodeRequest s r).2

/-- Modelled from the spec: `registry.Files.RegisterFile` (registry
package, outside the given sources): registration fails with a missing
dependency when a referenced file is not yet registered; re-registering
an already-seen path is a no-op (first occurrence wins). -/
def RegisterFile (files : List FileDescriptor) (fd : FileDescriptor) :
    Except String (List FileDescriptor) :=
  if files.any (fun f => f.path = fd.path) then .ok files
  else if fd.deps.all (fun d => files.any (fun f => f.path = d)) then
    .ok (files ++ [fd])
  else .error ("MissingDependency: cannot register " ++ fd.path)

/-- Embedding of `Server.addFiles` (server.go lines 138-160).  `parsed`
is the outcome of the external proto.Unmarshal + protodesc.NewFiles on
the protoset bytes: an error, or the file descriptors the resulting set
ranges over.  An Unmarshal/NewFiles failure is returned; each descriptor
not yet seen is then marked seen and registered, and a RegisterFile
error is only logged — the loop continues and addFiles succeeds. -/
def addFiles (reg : List FileDescriptor) (seen : List String)
    (parsed : Except String (List FileDescriptor)) :
    Except String (List FileDescriptor × List String) :=
  match parsed with
  | .error e => .error e
  | .ok fds =>
    .ok (fds.foldl
      (fun (acc : List FileDescriptor × List String) fd =>
        if fd.path ∈ acc.2 then acc
        else
          match RegisterFile acc.1 fd with
          | .error _ => (acc.1, acc.2 ++ [fd.path])
          | .ok reg' => (reg', acc.2 ++ [fd.path]))
      (reg, seen))

/-- Embedding of `Server.loadProtosets` (server.go lines 105-136) over
the already-read protoset inputs (explicit paths and glob matches with
the underscore-prefixed names dropped): add each in turn, aborting on
the first addFiles error. -/
def loadProtosets : List FileDescriptor → List String →
    List (Except String (List FileDescriptor)) → Except String (List FileDescriptor)
  | reg, _, [] => .ok reg
  | reg, seen, b :: rest =>
    match addFiles reg seen b with
    | .error e => .error e
    | .ok (reg', seen') => loadProtosets reg' seen' rest

/-- Embedding of the load phase of `NewServer` (server.go lines 57-74):
a loadProtosets failure makes NewServer return that error; otherwise the
server is built over the loaded registry. -/
def NewServer (inputs : List (Except String (List FileDescriptor))) :
    Except String (List FileDescriptor) :=
  loadProtosets [] [] inputs

/-- The descriptor kinds a registry lookup can return. -/
inductive Descriptor where
  | file (fd : FileDescriptor)
  | service (sd : ServiceDescriptor)
  | method (md : MethodDescriptor)
deriving DecidableEq

/-- Modelled from the spec: `FindDescriptorByName` (registry package,
outside the given sources): look a fully qualified dotted name up in the
registry; absence fails with NotFound. -/
def FindDescriptorByName (files : List FileDescriptor) (name : String) :
    Except String Descriptor :=
  match files.findSome? (fun fd =>
    if fd.pkg = name then some (Descriptor.file fd)
    else fd.services.findSome? (fun sd =>
      if fd.pkg ++ "." ++ sd.name = name then some (Descriptor.service sd)
      else sd.methods.findSome? (fun md =>
        if fd.pkg ++ "." ++ sd.name ++ "." ++ md.name = name then
          some (Descriptor.method md)
        else none))) with
  | some d => .ok d
  | none => .error ("NotFound: " ++ name)

/-- Embedding of `Server.lookupMethod` (server.go lines 162-172): a
lookup failure or a descriptor of another kind both yield nil. -/
def lookupMethod (files : List FileDescriptor) (name : String) :
    Option MethodDescriptor :=
  match FindDescriptorByName files name with
  | .error _ => none
  | .ok (.method md) => some md
  | .ok _ => none

/-- The method-name translation in `Server.UnknownHandler` (server.go
line 193): drop the leading byte (the slash of "/pkg.service/method")
and replace every remaining slash by a dot. -/
def translateFullMethod (method : String) : String :=
  stringReplaceAll (String.mk (method.data.drop 1)) "/" "."

/-- Embedding of `Server.UnknownHandler` (server.go lines 184-205).
`ctxMethod` is grpc.Method of the stream context — none when the context
carries no method.  `recv` is the stream's pending inbound message,
consumed by the dispatcher. -/
def UnknownHandler
    (eval : MethodDescriptor → ProtoMessage → Except GrpcStatus ProtoMessage)
    (files : List FileDescriptor) (ctxMethod : Option String)
    (recv : Except String ProtoMessage) :
    Bool × Except GoError (Option ProtoMessage) :=
  match ctxMethod with
  | none => (false, .error (.status ⟨.internal, "no method in stream context"⟩))
  | some method =>
    let fullMethod := translateFullMethod method
    match lookupMethod files fullMethod with
    | none =>
      (false, .error (.status ⟨.unimplemented, "method not found: " ++ fullMethod⟩))
    | some md => callMethod eval md recv

/-! ## Heap-explicit interpolation (the frame property of
interpolateHTTPRules) -/

instance : Inhabited HttpRule := ⟨⟨.unset, "", ""⟩⟩

/-- A heap of HttpRule objects: an address is an index into the cell
list; allocation appends. -/
structure RuleStore where
  cells : List HttpRule
deriving DecidableEq

/-- Read the object at an address. -/
def RuleStore.read (σ : RuleStore) (a : Nat) : Option HttpRule := σ.cells.get? a

/-- Allocate a fresh object, returning its address. -/
def RuleStore.alloc (σ : RuleStore) (r : HttpRule) : RuleStore × Nat :=
  (⟨σ.cells ++ [r]⟩, σ.cells.length)

/-- Overwrite the object at an address. -/
def RuleStore.write (σ : RuleStore) (a : Nat) (r : HttpRule) : RuleStore :=
  ⟨σ.cells.set a r⟩

/-- The external proto.Clone on an HttpRule reference: allocate a fresh
object holding a deep copy of the source object's value.  (Reads are
only performed at valid addresses under the theorems' hypotheses.) -/
def protoClone (σ : RuleStore) (a : Nat) : RuleStore × Nat :=
  σ.alloc (σ.cells.getD a default)

/-- The loop body of the heap-explicit interpolateHTTPRules: proto.Clone
the template at address `a`, then rewrite the clone's pattern path in
place through the oneof wrapper. -/
def interpStoreStep (pkg service method : String)
    (acc : RuleStore × List Nat) (a : Nat) : RuleStore × List Nat :=
  let (σ₀, addrs) := acc
  let (σ₁, a') := protoClone σ₀ a
  let σ₂ := σ₁.write a'
    (interpolateRuleClone (σ₁.cells.getD a' default) pkg service method)
  (σ₂, addrs ++ [a'])

/-- Heap-explicit embedding of `interpolateHTTPRules` (handler.go lines
157-177): for each template address in order, proto.Clone the template
and rewrite the clone's pattern path in place, collecting the clone
addresses. -/
def interpolateHTTPRulesStore (σ : RuleStore) (tmplAddrs : List Nat)
    (pkg service method : String) : RuleStore × List Nat :=
  tmplAddrs.foldl (interpStoreStep pkg service method) (σ, [])

/-- Repeated fallback synthesis, one interpolateHTTPRules call per
(package, service, method) triple, threading the store. -/
def runInterpolations (σ : RuleStore) (tmplAddrs : List Nat)
    (calls : List (String × String × String)) : RuleStore :=
  calls.foldl
    (fun σ c => (interpolateHTTPRulesStore σ tmplAddrs c.1 c.2.1 c.2.2).1) σ

/-! ## Lemmas about replaceAll -/

/-- For a single-character pattern and replacement, replaceAll is the
character-wise substitution map. -/
theorem replaceAll_single (c d : Char) (s : List Char) :
    replaceAll s [c] [d] = s.map (fun x => if x = c then d else x) := by
  induction s with
  | nil => simp [replaceAll]
  | cons x xs ih =>
    rw [replaceAll]
    by_cases h : c = x
    · subst h
      simp [List.isPrefixOf, ih]
    · have hpre : [c].isPrefixOf (x :: xs) = false := by
        simp [List.isPrefixOf]
        exact h
      have hxc : x ≠ c := fun hx => h hx.symm
      rw [hpre]
      simp [ih, hxc]

/-- The substitution map fixes a list not containing the character. -/
theorem map_subst_of_not_mem {c : Char} (d : Char) {l : List Char} (h : c ∉ l) :
    l.map (fun x => if x = c then d else x) = l := by
  induction l with
  | nil => rfl
  | cons x xs ih =>
    simp only [List.mem_cons, not_or] at h
    simp [Ne.symm h.1, ih h.2]

end Serve

namespace Serve

/-- C7: for a binary-protocol call, the slash-delimited path form
"/pkg.service/method" is translated to the dotted fully qualified name:
the leading slash is stripped and every remaining slash becomes a dot. -/
theorem C7_slash_to_dot_translation (pkgService method : String)
    (h1 : '/' ∉ pkgService.data) (h2 : '/' ∉ method.data) :
    translateFullMethod ("/" ++ pkgService ++ "/" ++ method) =
      pkgService ++ "." ++ method := by
  unfold translateFullMethod stringReplaceAll
  apply String.ext
  simp only [String.data_append]
  show replaceAll ((("/".data ++ pkgService.data ++ "/".data ++ method.data)).drop 1)
      "/".data ".".data = _
  have hdata : "/".data = ['/'] := rfl
  have hdot : ".".data = ['.'] := rfl
  rw [hdata, hdot]
  simp only [List.cons_append, List.nil_append, List.drop_succ_cons, List.drop_zero]
  rw [replaceAll_single]
  simp [map_subst_of_not_mem '.' h1, map_subst_of_not_mem '.' h2]

/-- Witness for C7 at a concrete method path. -/
theorem C7_witness :
    translateFullMethod ("/" ++ "pkg.Svc" ++ "/" ++ "Echo") = "pkg.Svc" ++ "." ++ "Echo" :=
  C7_slash_to_dot_translation "pkg.Svc" "Echo" (by decide) (by decide)

/-- C9: an Accept header of exactly star-slash-star negotiates to the
JSON media type for every possible mime parser — the header value is
never parsed and never rejected — and so do requests with both headers
absent. -/
theorem C9_wildcard_accept_is_json :
    (∀ (parseMediaType : String → Except String String) (contentTypeHeader : String),
      getAcceptType parseMediaType "*/*" contentTypeHeader = .ok ContentTypeJSON) ∧
    (∀ (parseMediaType : String → Except String String),
      getAcceptType parseMediaType "" "" = .ok ContentTypeJSON) :=
  ⟨fun _ _ => rfl, fun _ => rfl⟩

/-- C5: response-encoding negotiation: a present Accept header decides
alone (the Content-Type header is ignored); an absent Accept falls back
to the Content-Type header; both absent fall back to JSON; every
successful negotiation yields the JSON or the binary-proto type, any
other negotiated type having been rejected; and a negotiation failure
terminates the HTTP-bridged call with that error with the Evaluator
never invoked. -/
theorem C5_content_negotiation :
    (∀ (parse : String → Except String String) (accept ct ct' : String), accept ≠ "" →
      getAcceptType parse accept ct = getAcceptType parse accept ct') ∧
    (∀ (parse : String → Except String String) (ct : String),
      getAcceptType parse "" ct = getAcceptType parse ct "") ∧
    (∀ (parse : String → Except String String),
      getAcceptType parse "" "" = .ok ContentTypeJSON) ∧
    (∀ (parse : String → Except String String) (accept ct t : String),
      getAcceptType parse accept ct = .ok t →
      t = ContentTypeJSON ∨ t = ContentTypeBinaryProto) ∧
    (∀ eval (parse : String → Except String String) decode md s (r : Request) e,
      getAcceptType parse r.acceptHeader r.contentTypeHeader = .error e →
      serveBridgedCall eval parse decode md s r = (false, .error (.plain e))) := by
  refine ⟨?_, ?_, ?_, ?_, ?_⟩
  · intro parse accept ct ct' h
    simp only [getAcceptType, if_neg h]
  · intro parse ct
    by_cases hct : ct = ""
    · subst hct; rfl
    · simp [getAcceptType, hct]
  · intro parse
    rfl
  · intro parse accept ct t h
    simp only [getAcceptType] at h
    split at h
    · exact absurd h (by simp)
    · split at h
      · exact absurd h (by simp)
      · rename_i hcond
        injection h with h'
        subst h'
        tauto
  · intro eval parse decode md s r e h
    simp [serveBridgedCall, RecvMsg, callMethod, h]

/-- Witness for C5: a present Accept header ignores Content-Type, and an
unsupported Accept header aborts the bridged call before evaluation. -/
theorem C5_witness :
    getAcceptType (fun s => .ok s) "application/json" "text/html" =
      getAcceptType (fun s => .ok s) "application/json" "" ∧
    serveBridgedCall (fun _ m => .ok m) (fun s => .ok s) (.ok ⟨0⟩) ⟨"M", []⟩
        ⟨"", none⟩ ⟨"GET", "/x", "text/html", ""⟩ =
      (false, .error (.plain "invalid Accept content type text/html")) :=
  ⟨C5_content_negotiation.1 (fun s => .ok s) "application/json" "text/html" ""
      (by decide),
   C5_content_negotiation.2.2.2.2 (fun _ m => .ok m) (fun s => .ok s) (.ok ⟨0⟩)
      ⟨"M", []⟩ ⟨"", none⟩ ⟨"GET", "/x", "text/html", ""⟩
      "invalid Accept content type text/html" (by rfl)⟩

/-- C2 counterexample: with one response already buffered, a second
SendMsg does not return a call-local error value — it panics (the
crash-on-misuse the design notes flag), so the claim as stated fails at
this concrete input. -/
theorem C2_counterexample :
    SendMsg ⟨"", some ⟨0⟩⟩ ⟨1⟩ = .panicked "only one response expected!" ⟨"", some ⟨0⟩⟩ :=
  rfl

/-- C2 amended: the adapter buffers exactly one outbound value; the
first SendMsg stores the message and returns no error, while a second
SendMsg panics with "only one response expected!" — a crash-on-misuse
rather than a returned call-local error — leaving the buffered first
response unchanged, the second value never stored or duplicated. -/
theorem C2_single_response_buffer (s : ServerStreamState) (m : ProtoMessage) :
    (s.resp = none → SendMsg s m = .ret none { s with resp := some m }) ∧
    (∀ r, s.resp = some r → SendMsg s m = .panicked "only one response expected!" s) := by
  constructor
  · intro h
    simp [SendMsg, h]
  · intro r h
    simp [SendMsg, h]

/-- Witness for the amended C2 at concrete stream states. -/
theorem C2_witness :
    SendMsg ⟨"", none⟩ ⟨5⟩ = .ret none ⟨"", some ⟨5⟩⟩ ∧
    SendMsg ⟨"", some ⟨5⟩⟩ ⟨6⟩ = .panicked "only one response expected!" ⟨"", some ⟨5⟩⟩ :=
  ⟨(C2_single_response_buffer ⟨"", none⟩ ⟨5⟩).1 rfl,
   (C2_single_response_buffer ⟨"", some ⟨5⟩⟩ ⟨6⟩).2 ⟨5⟩ rfl⟩

/-- C8: when marshalling the error status fails, writeError writes the
fixed fallback payload, whose text hardcodes code 13, with HTTP status
500 — shown for each reachable negotiated accept type (empty, JSON,
binary-proto) — and a marshalling failure on the success path is routed
through this same writeError path. -/
theorem C8_marshal_fallback (pm pj : Marshal) (s : ServerStreamState)
    (err : GoError) (e : String) :
    (s.acceptType = "" → pj (.statusProto (statusConvert err)) = .error e →
      writeError pm pj s err = .wrote ⟨500, none, errMarshalFailed⟩) ∧
    (s.acceptType = ContentTypeJSON →
      pj (.statusProto (statusConvert err)) = .error e →
      writeError pm pj s err = .wrote ⟨500, some ContentTypeJSON, errMarshalFailed⟩) ∧
    (s.acceptType = ContentTypeBinaryProto →
      pm (.statusProto (statusConvert err)) = .error e →
      writeError pm pj s err =
        .wrote ⟨500, some ContentTypeBinaryProto, errMarshalFailed⟩) ∧
    (∀ (f : Marshal) (e' : String),
      marshalerForContentType pm pj s.acceptType = .fn f →
      f (.resp s.resp) = .error e' →
      writeResp pm pj s = writeError pm pj s (.plain e')) := by
  refine ⟨?_, ?_, ?_, ?_⟩
  · intro h hm
    simp +decide [writeError, marshalerForContentType, h, hm]
  · intro h hm
    simp +decide [writeError, marshalerForContentType, ContentTypeJSON,
      ContentTypeBinaryProto, h, hm]
  · intro h hm
    simp +decide [writeError, marshalerForContentType, ContentTypeJSON,
      ContentTypeBinaryProto, h, hm]
  · intro f e' hf hm
    simp [writeResp, hf, hm]

/-- Witness for C8: failing marshallers produce the 500 fallback, and a
success-path failure reduces to the error path. -/
theorem C8_witness :
    writeError (fun _ => .error "boom") (fun _ => .error "boom") ⟨"", none⟩ (.plain "x") =
      .wrote ⟨500, none, errMarshalFailed⟩ ∧
    writeResp (fun _ => .error "boom") (fun _ => .error "boom") ⟨ContentTypeJSON, some ⟨3⟩⟩ =
      writeError (fun _ => .error "boom") (fun _ => .error "boom")
        ⟨ContentTypeJSON, some ⟨3⟩⟩ (.plain "boom") :=
  ⟨(C8_marshal_fallback (fun _ => .error "boom") (fun _ => .error "boom")
      ⟨"", none⟩ (.plain "x") "boom").1 rfl rfl,
   (C8_marshal_fallback (fun _ => .error "boom") (fun _ => .error "boom")
      ⟨ContentTypeJSON, some ⟨3⟩⟩ (.plain "x") "boom").2.2.2
      (fun _ => .error "boom") "boom" rfl rfl⟩

/-- C4: a binary-protocol call whose translated fully qualified method
name resolves to no method descriptor in the registry returns the
call-scoped Unimplemented status error, with the Evaluator never
invoked (the embedding is a total function returning that value: no
crash, no hang). -/
theorem C4_unknown_method_unimplemented
    (eval : MethodDescriptor → ProtoMessage → Except GrpcStatus ProtoMessage)
    (files : List FileDescriptor) (method : String)
    (recv : Except String ProtoMessage)
    (h : lookupMethod files (translateFullMethod method) = none) :
    UnknownHandler eval files (some method) recv =
      (false, .error (.status ⟨.unimplemented,
        "method not found: " ++ translateFullMethod method⟩)) := by
  simp [UnknownHandler, h]

/-- Witness for C4: an empty registry rejects a concrete call with
Unimplemented. -/
theorem C4_witness :
    UnknownHandler (fun _ m => .ok m) [] (some "/pkg.Svc/Echo") (.ok ⟨0⟩) =
      (false, .error (.status ⟨.unimplemented,
        "method not found: " ++ translateFullMethod "/pkg.Svc/Echo"⟩)) :=
  C4_unknown_method_unimplemented (fun _ m => .ok m) [] "/pkg.Svc/Echo" (.ok ⟨0⟩) rfl

end Serve


namespace Serve

/-- A fold that appends one element per item is a map. -/
theorem foldl_append_map {α β : Type} (f : α → β) (l : List α) (acc : List β) :
    l.foldl (fun acc x => acc ++ [f x]) acc = acc ++ l.map f := by
  induction l generalizing acc with
  | nil => simp
  | cons x xs ih => simp [ih]

/-- A fold that appends one block per item is a flatMap. -/
theorem foldl_append_flat {α β : Type} (g : α → List β) (l : List α) (acc : List β) :
    l.foldl (fun acc x => acc ++ g x) acc = acc ++ l.flatMap g := by
  induction l generalizing acc with
  | nil => simp
  | cons x xs ih => simp [ih]

/-- The rule table is built in declaration order: loadHTTPRules is the
flattening of files, then services, then methods, then each method's
rules in binding order. -/
theorem loadHTTPRules_eq_flatMap (files : List FileDescriptor) (tms : List HttpRule) :
    loadHTTPRules files tms = files.flatMap (fun fd =>
      fd.services.flatMap (fun sd =>
        sd.methods.flatMap (fun md =>
          (rulesForMethod tms fd.pkg sd.name md).map (fun r => httpMethod.mk md r)))) := by
  unfold loadHTTPRules
  simp only [foldl_append_map, foldl_append_flat, List.nil_append]

/-- C1: ServeHTTP scans the rule table in order and dispatches to the
first entry whose matcher accepts the request — stated for every
matching function, so the earlier-registered entry wins regardless of
specificity; when no entry matches, the request falls through to the
default handler, which NewHandler initializes to the 404 Not Found
handler; and the table is in declaration order (files, then services,
then methods, then binding order). -/
theorem C1_first_match_wins :
    (∀ (matchRequest : HttpRule → Request → Option (List (String × String)))
        (pre post : List httpMethod) (m : httpMethod) (r : Request)
        (vars : List (String × String)),
      (∀ m' ∈ pre, matchRequest m'.rule r = none) →
      matchRequest m.rule r = some vars →
      ServeHTTP matchRequest (pre ++ m :: post) r = .toMethod m vars) ∧
    (∀ (matchRequest : HttpRule → Request → Option (List (String × String)))
        (ms : List httpMethod) (r : Request),
      (∀ m' ∈ ms, matchRequest m'.rule r = none) →
      ServeHTTP matchRequest ms r = .toDefault) ∧
    (∀ files, NewHandler files [] =
      .ok ⟨loadHTTPRules files [], [], notFoundHandler⟩) ∧
    (∀ r, (notFoundHandler r).status = 404) ∧
    (∀ files tms, loadHTTPRules files tms = files.flatMap (fun fd =>
      fd.services.flatMap (fun sd =>
        sd.methods.flatMap (fun md =>
          (rulesForMethod tms fd.pkg sd.name md).map (fun r => httpMethod.mk md r))))) := by
  refine ⟨?_, ?_, ?_, ?_, ?_⟩
  · intro matchRequest pre post m r vars hpre hm
    induction pre with
    | nil => simp [ServeHTTP, hm]
    | cons p ps ih =>
      have hp := hpre p (by simp)
      simp only [List.cons_append, ServeHTTP, hp]
      exact ih (fun m' hm' => hpre m' (by simp [hm']))
  · intro matchRequest ms r h
    induction ms with
    | nil => rfl
    | cons p ps ih =>
      have hp := h p (by simp)
      simp only [ServeHTTP, hp]
      exact ih (fun m' hm' => h m' (by simp [hm']))
  · intro files
    rfl
  · intro r
    rfl
  · exact fun files tms => loadHTTPRules_eq_flatMap files tms

/-- Witness for C1: with a matcher accepting both of two overlapping
rules, the earlier-registered one wins under either registration
order. -/
theorem C1_witness :
    ServeHTTP (fun _ _ => some []) ([] ++ ⟨⟨"A", []⟩, ⟨.get "/a", "", ""⟩⟩ ::
        [⟨⟨"B", []⟩, ⟨.get "/b", "", ""⟩⟩]) ⟨"GET", "/a", "", ""⟩ =
      .toMethod ⟨⟨"A", []⟩, ⟨.get "/a", "", ""⟩⟩ [] ∧
    ServeHTTP (fun _ _ => some []) ([] ++ ⟨⟨"B", []⟩, ⟨.get "/b", "", ""⟩⟩ ::
        [⟨⟨"A", []⟩, ⟨.get "/a", "", ""⟩⟩]) ⟨"GET", "/a", "", ""⟩ =
      .toMethod ⟨⟨"B", []⟩, ⟨.get "/b", "", ""⟩⟩ [] :=
  ⟨C1_first_match_wins.1 (fun _ _ => some []) [] [⟨⟨"B", []⟩, ⟨.get "/b", "", ""⟩⟩]
      ⟨⟨"A", []⟩, ⟨.get "/a", "", ""⟩⟩ ⟨"GET", "/a", "", ""⟩ [] (by simp) rfl,
   C1_first_match_wins.1 (fun _ _ => some []) [] [⟨⟨"A", []⟩, ⟨.get "/a", "", ""⟩⟩]
      ⟨⟨"B", []⟩, ⟨.get "/b", "", ""⟩⟩ ⟨"GET", "/a", "", ""⟩ [] (by simp) rfl⟩

/-- C6: a method with no declared rules, under configured fallback
templates, synthesizes exactly one rule per template by substituting
the literal package/service/method placeholders in the template's
pattern path, keeping the verb kind and the body selectors; a method
with declared rules keeps exactly them; no configured templates
synthesizes nothing. -/
theorem C6_fallback_rule_synthesis :
    (∀ (tms : List HttpRule) (pkg svc : String) (md : MethodDescriptor),
      md.declaredRules = [] → tms ≠ [] →
      rulesForMethod tms pkg svc md =
        tms.map (fun t => interpolateRuleClone t pkg svc md.name)) ∧
    (∀ (tms : List HttpRule) (pkg svc : String) (md : MethodDescriptor),
      md.declaredRules ≠ [] → rulesForMethod tms pkg svc md = md.declaredRules) ∧
    (∀ (pkg svc : String) (md : MethodDescriptor),
      rulesForMethod [] pkg svc md = md.declaredRules) ∧
    (∀ (t : HttpRule) (pkg svc m : String),
      (interpolateRuleClone t pkg svc m).patternPath =
        t.patternPath.map (fun p => interpolate p pkg svc m) ∧
      (interpolateRuleClone t pkg svc m).patternVerb = t.patternVerb ∧
      (interpolateRuleClone t pkg svc m).body = t.body ∧
      (interpolateRuleClone t pkg svc m).responseBody = t.responseBody) := by
  refine ⟨?_, ?_, ?_, ?_⟩
  · intro tms pkg svc md h1 h2
    simp [rulesForMethod, Collect, interpolateHTTPRules, h1, h2]
  · intro tms pkg svc md h
    simp [rulesForMethod, Collect, h]
  · intro pkg svc md
    simp [rulesForMethod, Collect]
  · intro t pkg svc m
    obtain ⟨pat, b, rb⟩ := t
    cases pat <;>
      simp [interpolateRuleClone, HttpRule.patternPath, HttpRule.patternVerb]

/-- Witness for C6 at one template and one rule-less method, with the
substitution evaluated on a concrete path. -/
theorem C6_witness :
    rulesForMethod [⟨.get "/api/\x7bpackage\x7d.\x7bservice\x7d/\x7bmethod\x7d", "", ""⟩]
        "pkg" "Svc" ⟨"Echo", []⟩ =
      [⟨.get "/api/\x7bpackage\x7d.\x7bservice\x7d/\x7bmethod\x7d", "", ""⟩].map
        (fun t => interpolateRuleClone t "pkg" "Svc" "Echo") ∧
    interpolate "/api/\x7bpackage\x7d.\x7bservice\x7d/\x7bmethod\x7d" "pkg" "Svc" "Echo" =
      "/api/pkg.Svc/Echo" :=
  ⟨C6_fallback_rule_synthesis.1
      [⟨.get "/api/\x7bpackage\x7d.\x7bservice\x7d/\x7bmethod\x7d", "", ""⟩]
      "pkg" "Svc" ⟨"Echo", []⟩ rfl (by simp),
   by simp [interpolate, stringReplaceAll, replaceAll]⟩

end Serve

namespace Serve

/-- A parsed-ok protoset never makes addFiles fail: the match returns
success immediately, RegisterFile errors being swallowed inside the
fold. -/
theorem addFiles_ok_of_parsed (reg : List FileDescriptor) (seen : List String)
    (fds : List FileDescriptor) : ∃ out, addFiles reg seen (.ok fds) = .ok out :=
  ⟨_, rfl⟩

/-- loadProtosets succeeds on any list of parsed-ok inputs, whatever
their dependencies. -/
theorem loadProtosets_ok_of_parsed :
    ∀ (inputs : List (Except String (List FileDescriptor)))
      (reg : List FileDescriptor) (seen : List String),
      (∀ i ∈ inputs, ∃ fds, i = .ok fds) →
      ∃ out, loadProtosets reg seen inputs = .ok out := by
  intro inputs
  induction inputs with
  | nil => exact fun reg _ _ => ⟨reg, rfl⟩
  | cons i rest ih =>
    intro reg seen h
    obtain ⟨fds, rfl⟩ := h i (by simp)
    exact ih _ _ (fun j hj => h j (by simp [hj]))

/-- C3 counterexample: a protoset whose single file references an
unregistered dependency makes RegisterFile fail, yet NewServer succeeds
with the file silently absent from the registry — the load-time
dependency error is logged and swallowed, not fatal, refuting the claim
at this concrete input. -/
theorem C3_counterexample :
    RegisterFile [] ⟨"b.proto", "b", ["a.proto"], []⟩ =
      .error "MissingDependency: cannot register b.proto" ∧
    NewServer [.ok [⟨"b.proto", "b", ["a.proto"], []⟩]] = .ok [] :=
  ⟨rfl, rfl⟩

/-- C3 amended: an Unmarshal/NewFiles failure on a protoset is fatal and
aborts NewServer, but a RegisterFile failure — in particular a missing
dependency — is only logged: the file is marked seen, skipped, and the
load succeeds, so NewServer returns no error for any parseable input
set. -/
theorem C3_load_error_handling (reg : List FileDescriptor) (seen : List String) :
    (∀ e, addFiles reg seen (.error e) = .error e) ∧
    (∀ e rest, loadProtosets reg seen (.error e :: rest) = .error e) ∧
    (∀ fds, ∃ out, addFiles reg seen (.ok fds) = .ok out) ∧
    (∀ inputs, (∀ i ∈ inputs, ∃ fds, i = .ok fds) →
      ∃ out, NewServer inputs = .ok out) ∧
    (∀ fd e, fd.path ∉ seen → RegisterFile reg fd = .error e →
      addFiles reg seen (.ok [fd]) = .ok (reg, seen ++ [fd.path])) := by
  refine ⟨fun e => rfl, fun e rest => rfl, fun fds => ⟨_, rfl⟩, ?_, ?_⟩
  · exact fun inputs h => loadProtosets_ok_of_parsed inputs [] [] h
  · intro fd e h1 h2
    simp [addFiles, h1, h2]

/-- Witness for the amended C3: a parse error aborts; a concrete missing
dependency is skipped without error. -/
theorem C3_witness :
    addFiles [] [] (.error "unmarshal failed") = .error "unmarshal failed" ∧
    addFiles [] [] (.ok [⟨"b.proto", "b", ["a.proto"], []⟩]) =
      .ok ([], [] ++ ["b.proto"]) :=
  ⟨(C3_load_error_handling [] []).1 "unmarshal failed",
   (C3_load_error_handling [] []).2.2.2.2 ⟨"b.proto", "b", ["a.proto"], []⟩
      "MissingDependency: cannot register b.proto" (by simp) rfl⟩

/-- One store step appends the interpolated clone of the read template
and returns the fresh address. -/
theorem interpStoreStep_eq (pkg svc m : String) (σ : RuleStore)
    (addrs : List Nat) (a : Nat) :
    interpStoreStep pkg svc m (σ, addrs) a =
      (⟨σ.cells ++ [interpolateRuleClone (σ.cells.getD a default) pkg svc m]⟩,
       addrs ++ [σ.cells.length]) := by
  simp [interpStoreStep, protoClone, RuleStore.alloc, RuleStore.write, List.getD]

/-- The interpolation fold only grows the store. -/
theorem interpFold_len_mono (pkg svc m : String) :
    ∀ (as : List Nat) (σ : RuleStore) (addrs : List Nat),
      σ.cells.length ≤
        ((as.foldl (interpStoreStep pkg svc m) (σ, addrs)).1).cells.length := by
  intro as
  induction as with
  | nil => intro σ addrs; simp
  | cons x xs ih =>
    intro σ addrs
    rw [List.foldl_cons, interpStoreStep_eq]
    calc σ.cells.length
        ≤ σ.cells.length + 1 := Nat.le_succ _
      _ = (σ.cells ++
            [interpolateRuleClone (σ.cells.getD x default) pkg svc m]).length := by simp
      _ ≤ _ := ih _ _

/-- The interpolation fold never changes a cell below the original store
length. -/
theorem interpFold_read_lt (pkg svc m : String) :
    ∀ (as : List Nat) (σ : RuleStore) (addrs : List Nat) (a : Nat),
      a < σ.cells.length →
      ((as.foldl (interpStoreStep pkg svc m) (σ, addrs)).1).cells.get? a =
        σ.cells.get? a := by
  intro as
  induction as with
  | nil => intro σ addrs a ha; rfl
  | cons x xs ih =>
    intro σ addrs a ha
    rw [List.foldl_cons, interpStoreStep_eq]
    rw [ih _ _ _ (by simp; omega)]
    simp [List.get?_eq_getElem?, List.getElem?_append_left ha]

/-- Every address the interpolation fold emits is inherited or fresh
(at or above the original store length). -/
theorem interpFold_new_addrs (pkg svc m : String) :
    ∀ (as : List Nat) (σ : RuleStore) (addrs : List Nat) (a' : Nat),
      a' ∈ (as.foldl (interpStoreStep pkg svc m) (σ, addrs)).2 →
      a' ∈ addrs ∨ σ.cells.length ≤ a' := by
  intro as
  induction as with
  | nil => intro σ addrs a' h; exact Or.inl h
  | cons x xs ih =>
    intro σ addrs a' h
    rw [List.foldl_cons, interpStoreStep_eq] at h
    rcases ih _ _ _ h with h' | h'
    · rcases List.mem_append.mp h' with h'' | h''
      · exact Or.inl h''
      · right
        simp at h''
        omega
    · right
      simp at h'
      omega

/-- Unfolding one interpolation call in a run. -/
theorem runInterpolations_cons (σ : RuleStore) (t : List Nat)
    (c : String × String × String) (rest : List (String × String × String)) :
    runInterpolations σ t (c :: rest) =
      runInterpolations ((interpolateHTTPRulesStore σ t c.1 c.2.1 c.2.2).1) t rest :=
  rfl

/-- C10: synthesizing fallback rules never mutates the caller-supplied
templates: one interpolateHTTPRules call leaves every object below the
original store length — in particular every template — byte-for-byte
unchanged; every synthesized rule lives at a fresh address distinct
from every template address; and after any number of interpolation
calls for any methods the templates still read back unchanged. -/
theorem C10_templates_never_mutated (σ : RuleStore) (tmplAddrs : List Nat)
    (pkg svc m : String) :
    (∀ a, a < σ.cells.length →
      ((interpolateHTTPRulesStore σ tmplAddrs pkg svc m).1).read a = σ.read a) ∧
    ((∀ a ∈ tmplAddrs, a < σ.cells.length) →
      ∀ a' ∈ (interpolateHTTPRulesStore σ tmplAddrs pkg svc m).2, a' ∉ tmplAddrs) ∧
    (∀ calls : List (String × String × String), ∀ a, a < σ.cells.length →
      (runInterpolations σ tmplAddrs calls).read a = σ.read a) := by
  refine ⟨?_, ?_, ?_⟩
  · intro a ha
    exact interpFold_read_lt pkg svc m tmplAddrs σ [] a ha
  · intro hvalid a' h' hmem
    rcases interpFold_new_addrs pkg svc m tmplAddrs σ [] a' h' with h | h
    · simp at h
    · have := hvalid a' hmem
      omega
  · intro calls
    induction calls generalizing σ with
    | nil => intro a ha; rfl
    | cons c rest ih =>
      intro a ha
      rw [runInterpolations_cons]
      have hlen : σ.cells.length ≤
          ((interpolateHTTPRulesStore σ tmplAddrs c.1 c.2.1 c.2.2).1).cells.length :=
        interpFold_len_mono c.1 c.2.1 c.2.2 tmplAddrs σ []
      rw [ih _ a (lt_of_lt_of_le ha hlen)]
      exact interpFold_read_lt c.1 c.2.1 c.2.2 tmplAddrs σ [] a ha

/-- Witness for C10 on a one-template store. -/
theorem C10_witness :
    ((interpolateHTTPRulesStore ⟨[⟨.get "/t", "", ""⟩]⟩ [0] "p" "S" "M").1).read 0 =
      RuleStore.read ⟨[⟨.get "/t", "", ""⟩]⟩ 0 ∧
    (1 : Nat) ∉ ([0] : List Nat) ∧
    (runInterpolations ⟨[⟨.get "/t", "", ""⟩]⟩ [0] [("p", "S", "M")]).read 0 =
      RuleStore.read ⟨[⟨.get "/t", "", ""⟩]⟩ 0 :=
  ⟨(C10_templates_never_mutated ⟨[⟨.get "/t", "", ""⟩]⟩ [0] "p" "S" "M").1 0
      (by decide),
   (C10_templates_never_mutated ⟨[⟨.get "/t", "", ""⟩]⟩ [0] "p" "S" "M").2.1
      (by decide) 1 (by show (1 : Nat) ∈ [1]; simp),
   (C10_templates_never_mutated ⟨[⟨.get "/t", "", ""⟩]⟩ [0] "p" "S" "M").2.2
      [("p", "S", "M")] 0 (by decide)⟩

end Serve
